import Mathlib

/-!
Shallow embedding of the AI PDF-to-Excel converter application.

The data model follows `types.ts` (`ProcessJobStatus`, `ConversionMode`,
`CellStyle`, `CellData`, `SheetData`, `PdfOptions`, `ProcessJob`) and the
operations follow the `App` component and its helpers in the main source
file (`parsePageRange`, the queue-restore initializer, `handleFileSelect`,
`processJob`, the admission `useEffect`, `handleRetry`, `handleRetrySelected`,
`handleToggleSelectAll`, `handleStyleChange`, `handleDownload`,
`downloadPdfFromSheets`).

JavaScript specifics are modelled as follows: optional / nullable fields
become `Option`; a `Set<string>` becomes a `Finset String` (extensionally
faithful: the code only uses `has` / `add` / `delete` / size and membership
filters); `parseInt(s, 10)` is modelled exactly (optional sign, longest
leading digit run, `NaN` as `none`); thrown exceptions become `Except`.
-/

/-- Type `ProcessJobStatus` from `types.ts`: `'queued' | 'processing' | 'success' | 'error'`. -/
inductive ProcessJobStatus
  | queued
  | processing
  | success
  | error
deriving DecidableEq, Repr

/-- Type `ConversionMode` from `types.ts`: `'pdf-to-excel' | 'excel-to-pdf'`. -/
inductive ConversionMode
  | pdfToExcel
  | excelToPdf
deriving DecidableEq, Repr

/-- Horizontal alignment values of `CellStyle.align`. -/
inductive CellAlign
  | left
  | center
  | right
deriving DecidableEq, Repr

/-- Type `CellStyle` from `types.ts`: every field is optional. -/
structure CellStyle where
  bold : Option Bool := none
  italic : Option Bool := none
  underline : Option Bool := none
  strikethrough : Option Bool := none
  color : Option String := none
  align : Option CellAlign := none
deriving DecidableEq, Repr

/-- Model of a `Partial<CellStyle>` style patch.  A JavaScript partial object
distinguishes an *absent* key (outer `none`: the spread keeps the current
value) from a key *present with value `undefined`* (`some none`: the spread
overwrites the field with `undefined`, e.g. the "Remove color" button passes
`{ color: undefined }`). -/
structure CellStylePatch where
  bold : Option (Option Bool) := none
  italic : Option (Option Bool) := none
  underline : Option (Option Bool) := none
  strikethrough : Option (Option Bool) := none
  color : Option (Option String) := none
  align : Option (Option CellAlign) := none
deriving DecidableEq, Repr

/-- Type `CellData` from `types.ts`. -/
structure CellData where
  value : String
  style : Option CellStyle := none
deriving DecidableEq, Repr

/-- Type `SheetData` from `types.ts`. -/
structure SheetData where
  sheetName : String
  data : List (List CellData)
deriving DecidableEq, Repr

/-- A raw sheet as returned by the external extraction service or the
spreadsheet reader: `{ sheetName: string, data: string[][] }`. -/
structure RawSheet where
  sheetName : String
  data : List (List String)
deriving DecidableEq, Repr

/-- Type `PdfOptions` from `types.ts`. -/
structure PdfOptions where
  orientation : Bool := true  -- `true` for 'p' (portrait), `false` for 'l'
  fontSize : Nat := 10
  autoWidth : Bool := true
deriving DecidableEq, Repr

/-- Constant `DEFAULT_PDF_OPTIONS = { orientation: 'p', fontSize: 10, autoWidth: true }`. -/
def DEFAULT_PDF_OPTIONS : PdfOptions := { orientation := true, fontSize := 10, autoWidth := true }

/-- The identity of a browser `File` object: the fields `handleFileSelect`
reads (`name`, `lastModified`, `size`). -/
structure JsFile where
  name : String
  lastModified : Nat
  size : Nat
deriving DecidableEq, Repr

/-- Type `ProcessJob` from `types.ts`.  The raw `File` handle is optional; the
JavaScript distinction between `null` and `undefined` collapses to `none`
(the code only ever tests truthiness of these fields). -/
structure ProcessJob where
  id : String
  file : Option JsFile := none
  fileName : String := ""
  fileSize : Nat := 0
  status : ProcessJobStatus
  conversionMode : ConversionMode := .pdfToExcel
  extractedSheets : Option (List SheetData) := none
  errorMessage : Option String := none
  currentThumbnailIndex : Nat := 0
  pageRange : Option String := none
  progressMessage : Option String := none
  pdfOptions : Option PdfOptions := none
deriving DecidableEq, Repr

/-- Constant `MAX_CONCURRENT_JOBS = 3` from the `App` component. -/
def MAX_CONCURRENT_JOBS : Nat := 3

/-! ## PageRangeParser (`parsePageRange`)

The JavaScript string primitives the parser uses (`trim`, `split`,
`includes`, `parseInt`) are modelled over `List Char` (core `String`
functions do not evaluate inside the kernel). -/

/-- JavaScript `String.prototype.trim` on a character list. -/
def trimChars (cs : List Char) : List Char :=
  ((cs.dropWhile Char.isWhitespace).reverse.dropWhile Char.isWhitespace).reverse

/-- JavaScript `String.prototype.split` with a single-character separator:
always returns at least one (possibly empty) piece, e.g.
`split ',' "" = [""]` and `split '-' "-5" = ["", "5"]`. -/
def splitChar (sep : Char) : List Char → List (List Char)
  | [] => [[]]
  | c :: rest =>
    let r := splitChar sep rest
    if c = sep then [] :: r
    else
      match r with
      | [] => [[c]]
      | h :: t => (c :: h) :: t

/-- The value of the longest leading run of decimal digits of `cs`. -/
def digitRunVal (cs : List Char) : Nat :=
  (cs.takeWhile Char.isDigit).foldl (fun n c => n * 10 + (c.toNat - '0'.toNat)) 0

/-- JavaScript `parseInt(s.trim(), 10)`: skip whitespace, read an optional
sign and then the longest run of decimal digits; `NaN` (here `none`) if that
run is empty. -/
def jsParseInt (s : List Char) : Option Int :=
  match trimChars s with
  | '-' :: rest =>
      if (rest.takeWhile Char.isDigit).isEmpty then none
      else some (-(digitRunVal rest : Int))
  | '+' :: rest =>
      if (rest.takeWhile Char.isDigit).isEmpty then none
      else some (digitRunVal rest : Int)
  | cs =>
      if (cs.takeWhile Char.isDigit).isEmpty then none
      else some (digitRunVal cs : Int)

/-- One `start-end` token of `parsePageRange`: the loop
`for (i = start; i <= end; i++) if (i > 0 && i <= maxPages) pages.add(i)`
adds exactly the integers of `[start, end] ∩ [1, maxPages]`. -/
def rangeTokenPages (startv endv : Int) (maxPages : Nat) : Finset Nat :=
  (Finset.Icc 1 maxPages).filter (fun i => startv ≤ (i : Int) ∧ (i : Int) ≤ endv)

/-- One comma-separated token of `parsePageRange`, added to the accumulated
page set.  A token containing `'-'` is destructured as
`const [start, end] = part.split('-').map(s => parseInt(s.trim(), 10))`
(extra `-`-pieces are ignored); a `NaN` on either side drops the token.
A plain token is `parseInt(part.trim(), 10)`, kept iff in `(0, maxPages]`. -/
def addTokenPages (maxPages : Nat) (pages : Finset Nat) (part : List Char) : Finset Nat :=
  if part.contains '-' then
    let pieces := splitChar '-' part
    match jsParseInt (pieces.getD 0 []), jsParseInt (pieces.getD 1 []) with
    | some startv, some endv => pages ∪ rangeTokenPages startv endv maxPages
    | _, _ => pages
  else
    match jsParseInt part with
    | some page => if 0 < page ∧ page ≤ (maxPages : Int) then insert page.toNat pages else pages
    | none => pages

/-- Function `parsePageRange(rangeStr, maxPages)` from the `App` component.  Empty or
whitespace-only input yields `[1..maxPages]` directly; otherwise the
comma-separated tokens accumulate into a `Set` that is finally sorted
ascending (`Array.from(pages).sort((a, b) => a - b)`).  Every token filters
its candidates into `[1, maxPages]` before adding them, so the ascending
enumeration of the resulting duplicate-free set is exactly `[1..maxPages]`
restricted to its members, which is how the sort is rendered here. -/
def parsePageRange (rangeStr : String) (maxPages : Nat) : List Nat :=
  if trimChars rangeStr.toList = [] then
    (List.range maxPages).map (· + 1)
  else
    let parts := splitChar ',' rangeStr.toList
    let pages := parts.foldl (addTokenPages maxPages) ∅
    ((List.range maxPages).map (· + 1)).filter (fun i => decide (i ∈ pages))

/-! ## QueuePersistence (queue restore) -/

/-- The per-job mapper of the `useState<ProcessJob[]>` initializer restoring
the persisted queue: a saved `processing` or `queued` job becomes `error`
with a fixed message and no file handle; every other job only loses its
file handle. -/
def restoreJob (job : ProcessJob) : ProcessJob :=
  if job.status = .processing ∨ job.status = .queued then
    { job with status := .error,
               errorMessage := some "Processing was interrupted. Please re-upload to retry.",
               file := none }
  else
    { job with file := none }

/-- The queue restored from a persisted snapshot (the `savedJobs.map` of the
initializer; a missing or unparsable snapshot yields `[]`, i.e. `restoreJobs []`). -/
def restoreJobs (savedJobs : List ProcessJob) : List ProcessJob :=
  savedJobs.map restoreJob

/-- The `disabled={!job.file}` attribute of the per-job Retry button. -/
def retryButtonDisabled (job : ProcessJob) : Bool :=
  job.file.isNone

/-! ## JobEntity creation (`handleFileSelect`) -/

/-- Job identity: `` `${file.name}-${file.lastModified}-${file.size}` ``. -/
def jobIdOfFile (f : JsFile) : String :=
  f.name ++ "-" ++ toString f.lastModified ++ "-" ++ toString f.size

/-- One new job created by `handleFileSelect` for a selected file. -/
def mkNewJob (conversionMode : ConversionMode) (f : JsFile) : ProcessJob :=
  { id := jobIdOfFile f,
    file := some f,
    fileName := f.name,
    fileSize := f.size,
    status := .queued,
    conversionMode := conversionMode,
    pageRange := some "",
    progressMessage := some "",
    currentThumbnailIndex := 0,
    pdfOptions := if conversionMode = .excelToPdf then some DEFAULT_PDF_OPTIONS else none }

/-- Function `handleFileSelect`: keeps only the still-active (queued or
processing) jobs of the previous queue, appends the new jobs, and clears the
job selection set.  (The later asynchronous thumbnail update only fills
presentational fields of the new jobs.) -/
def handleFileSelect (conversionMode : ConversionMode) (files : List JsFile)
    (prevJobs : List ProcessJob) : List ProcessJob × Finset String :=
  let newJobs := files.map (mkNewJob conversionMode)
  ((prevJobs.filter fun job =>
      decide (job.status = .queued) || decide (job.status = .processing)) ++ newJobs,
   ∅)

/-! ## Retry (`handleRetry`, `handleRetrySelected`) -/

/-- Function `handleRetry(jobId)`: requeues every job whose id matches,
resetting `errorMessage` and `extractedSheets` to `null`.  The UI renders
this button only on `error` jobs and disables it via `retryButtonDisabled`
when the file handle is absent. -/
def handleRetry (jobId : String) (prevJobs : List ProcessJob) : List ProcessJob :=
  prevJobs.map fun job =>
    if job.id = jobId then
      { job with status := .queued, errorMessage := none, extractedSheets := none }
    else job

/-- The filter of `handleRetrySelected`: a selected id is retried when the
first job found with that id is an `error` job still holding its file. -/
def retrySelectable (jobs : List ProcessJob) (id : String) : Bool :=
  match jobs.find? (fun j => decide (j.id = id)) with
  | some job => decide (job.status = .error) && job.file.isSome
  | none => false

/-- Function `handleRetrySelected`: requeues (with the same resets as
`handleRetry`) every job whose id passed the `retrySelectable` filter, and
always clears the selection. -/
def handleRetrySelected (jobs : List ProcessJob) (selectedJobIds : Finset String) :
    List ProcessJob × Finset String :=
  let jobsToRetryIds := selectedJobIds.filter (fun id => retrySelectable jobs id = true)
  let newJobs :=
    if 0 < jobsToRetryIds.card then
      jobs.map fun job =>
        if job.id ∈ jobsToRetryIds then
          { job with status := .queued, errorMessage := none, extractedSheets := none }
        else job
    else jobs
  (newJobs, ∅)

/-! ## SelectionManager (`handleToggleSelectAll`) -/

/-- Function `handleToggleSelectAll`: if every visible (paginated) job id is
already selected (and the page is nonempty) the page's ids are removed from
the selection, otherwise they are all added. -/
def handleToggleSelectAll (paginatedJobs : List ProcessJob) (selectedJobIds : Finset String) :
    Finset String :=
  let paginatedJobIds := (paginatedJobs.map ProcessJob.id).toFinset
  let selectedOnPage := selectedJobIds.filter (· ∈ paginatedJobIds)
  if selectedOnPage.card = paginatedJobs.length ∧ 0 < paginatedJobs.length then
    selectedJobIds \ paginatedJobIds
  else
    selectedJobIds ∪ paginatedJobIds

/-! ## SheetDataModel (`handleStyleChange`) -/

/-- Index-aware map rendering the source's `for` loops over row / column
indices as a pure update (`mapFrom f i [a, b, ...] = [f i a, f (i+1) b, ...]`). -/
def mapFrom (f : Nat → α → α) : Nat → List α → List α
  | _, [] => []
  | i, a :: as => f i a :: mapFrom f (i + 1) as

/-- JavaScript object spread `{ ...currentStyle, ...style }` for a style
patch: a key present in the patch (even explicitly `undefined`) overwrites,
an absent key keeps the current value. -/
def spreadStyle (currentStyle : CellStyle) (patch : CellStylePatch) : CellStyle :=
  { bold := patch.bold.getD currentStyle.bold,
    italic := patch.italic.getD currentStyle.italic,
    underline := patch.underline.getD currentStyle.underline,
    strikethrough := patch.strikethrough.getD currentStyle.strikethrough,
    color := patch.color.getD currentStyle.color,
    align := patch.align.getD currentStyle.align }

/-- The double loop of `handleStyleChange` over the selection rectangle:
every cell with `start.row ≤ r ≤ end.row` and `start.col ≤ c ≤ end.col` gets
`style = { ...(cell.style || {}), ...patch }`; its value is untouched. -/
structure CellPos where
  row : Nat
  col : Nat
deriving DecidableEq, Repr

/-- A non-null `Selection` rectangle (`stop` renders the source's `end`,
which is a reserved word here). -/
structure SelectionRect where
  start : CellPos
  stop : CellPos
deriving DecidableEq, Repr

/-- One styled cell: `style = { ...(cell.style || {}), ...patch }`. -/
def styleCell (patch : CellStylePatch) (cell : CellData) : CellData :=
  { cell with style := some (spreadStyle (cell.style.getD {}) patch) }

/-- The rectangle update of `handleStyleChange` on one sheet's rows. -/
def styleCellsInRect (sel : SelectionRect) (patch : CellStylePatch)
    (rows : List (List CellData)) : List (List CellData) :=
  mapFrom (fun r row =>
    if sel.start.row ≤ r ∧ r ≤ sel.stop.row then
      mapFrom (fun c cell =>
        if sel.start.col ≤ c ∧ c ≤ sel.stop.col then styleCell patch cell else cell) 0 row
    else row) 0 rows

/-- Function `handleStyleChange(sheetIndex, selection, style)`: with no
selection the state update is skipped entirely; otherwise the deep-copied
sheets get the rectangle of the addressed sheet restyled. -/
def handleStyleChange (sheetIndex : Nat) (selection : Option SelectionRect)
    (style : CellStylePatch) (prevData : Option (List SheetData)) : Option (List SheetData) :=
  match selection with
  | none => prevData
  | some sel =>
    match prevData with
    | none => none
    | some sheets =>
      some (mapFrom (fun i sh =>
        if i = sheetIndex then { sh with data := styleCellsInRect sel style sh.data } else sh)
        0 sheets)

/-- Optional cell lookup used to state the effect of `handleStyleChange`. -/
def cellAt (sheets : List SheetData) (sheetIndex r c : Nat) : Option CellData :=
  ((sheets[sheetIndex]?).bind fun sh => sh.data[r]?).bind fun row => row[c]?

/-! ## Download (`downloadPdfFromSheets`, `handleDownload`) -/

/-- JavaScript template interpolation of a possibly-undefined string. -/
def jsInterp (s : Option String) : String :=
  match s with
  | some t => t
  | none => "undefined"

/-- Function `downloadPdfFromSheets`: resolves the sheet range against the
actual sheet count, throws (returns `.error`) when no sheet matches, and
otherwise runs the external `jsPDF` encoding, modelled by the
`encodeOutcome` parameter. -/
def downloadPdfFromSheets (encodeOutcome : Except String Unit) (sheets : List SheetData)
    (pageRange : Option String) : Except String Unit :=
  let totalSheets := sheets.length
  let selectedSheetNumbers := parsePageRange (pageRange.getD "") totalSheets
  let sheetsToProcess :=
    (sheets.enum.filter fun p => selectedSheetNumbers.contains (p.1 + 1)).map (·.2)
  if sheetsToProcess.length = 0 then
    .error ("No sheets match the specified range: \"" ++ jsInterp pageRange
            ++ "\". Please check your input.")
  else encodeOutcome

/-- The outcome of the download attempt inside `handleDownload`'s `try`
block (`externalOutcome` models a throw of the external `XLSX` / `jsPDF`
writers; its message already reflects the catch's `error instanceof Error`
conversion). -/
def downloadResult (externalOutcome : Except String Unit) (job : ProcessJob)
    (sheets : List SheetData) : Except String Unit :=
  if job.conversionMode = .pdfToExcel then externalOutcome
  else downloadPdfFromSheets externalOutcome sheets job.pageRange

/-- Function `handleDownload(job)`: returns immediately when the job has no
`extractedSheets`; on a caught download failure it marks the job `error`
with the failure message (leaving every other field, including
`extractedSheets`, unchanged). -/
def handleDownload (externalOutcome : Except String Unit) (job : ProcessJob)
    (jobs : List ProcessJob) : List ProcessJob :=
  match job.extractedSheets with
  | none => jobs
  | some sheets =>
    match downloadResult externalOutcome job sheets with
    | .ok _ => jobs
    | .error message =>
      jobs.map fun j =>
        if j.id = job.id then { j with status := .error, errorMessage := some message } else j

/-! ## The `processJob` pipeline as an event trace (counter pairing) -/

/-- Function `convertRawSheetsToRich`: wraps raw string tables into the
rich-cell model, giving every cell an empty style object. -/
def convertRawSheetsToRich (rawSheets : List RawSheet) : List SheetData :=
  rawSheets.map fun sheet =>
    { sheetName := sheet.sheetName,
      data := sheet.data.map fun row => row.map fun cellValue => { value := cellValue, style := some {} } }

/-- Observable events of one `processJob` run: the two accesses to the
active-jobs counter, the external pipeline invocations, and the job-state
updates. -/
inductive PipeEvent
  | incActive
  | decActive
  | renderPages
  | extractCall
  | readSheet
  | setStatus (id : String) (st : ProcessJobStatus) (msg : Option String)
  | setSuccess (id : String) (sheets : List SheetData)
  | setProgress (id : String) (msg : String)
deriving DecidableEq, Repr

/-- Results of the awaited external calls of `processJob`
(`convertPdfToImages`, `extractDataFromPdfImages`, `readExcelData`); a
`.error` is a rejected promise / thrown `Error` with its message. -/
structure PipelineOutcome where
  convertResult : Except String (List String)
  extractResult : Except String (List RawSheet)
  readResult : Except String (List RawSheet)

/-- The `try` block of `processJob` together with its `catch`: the first
failing await short-circuits to the catch's single `error` update.  The
page-by-page progress callbacks inside `convertPdfToImages` are elided
(they only set `progressMessage`). -/
def pipelineBody (job : ProcessJob) (oc : PipelineOutcome) : List PipeEvent :=
  match job.conversionMode with
  | .pdfToExcel =>
    .renderPages ::
    (match oc.convertResult with
     | .error m => [.setStatus job.id .error (some m)]
     | .ok images =>
       .setProgress job.id ("AI is analyzing " ++ toString images.length ++ " page(s)...") ::
       .extractCall ::
       (match oc.extractResult with
        | .error m => [.setStatus job.id .error (some m)]
        | .ok rawSheets => [.setSuccess job.id (convertRawSheetsToRich rawSheets)]))
  | .excelToPdf =>
    .setProgress job.id "Reading spreadsheet..." ::
    .readSheet ::
    (match oc.readResult with
     | .error m => [.setStatus job.id .error (some m)]
     | .ok rawSheets =>
       if rawSheets.length = 0 then
         [.setStatus job.id .error (some "Excel file contains no data.")]
       else [.setSuccess job.id (convertRawSheetsToRich rawSheets)])

/-- Function `processJob(jobToProcess)` as its event trace: the missing-file
guard precedes everything; otherwise the counter is incremented, the `try`
body runs, and the `finally` decrements the counter no matter how the body
settled. -/
def processJobTrace (jobToProcess : ProcessJob) (oc : PipelineOutcome) : List PipeEvent :=
  match jobToProcess.file with
  | none => [.setStatus jobToProcess.id .error
              (some "File not available. Please re-upload to process.")]
  | some _ => .incActive :: (pipelineBody jobToProcess oc ++ [.decActive])

/-- Contribution of one event to the active-jobs counter. -/
def activeDelta : PipeEvent → Int
  | .incActive => 1
  | .decActive => -1
  | _ => 0

/-- Net effect of a trace on the active-jobs counter. -/
def traceDelta (events : List PipeEvent) : Int :=
  (events.map activeDelta).sum

/-! ## JobQueueScheduler state machine

The coordinator's state: the job collection, the `activeJobsCount` counter,
and (as observation of the runtime, not a program variable) the multiset of
dispatched-but-unsettled pipelines, recorded by job id.  React batches the
state updates issued synchronously by one effect run, so one run of the
admission `useEffect` — flipping the admitted jobs to `processing` and
running each dispatched `processJob` up to its first `await` — is one atomic
step, and each pipeline resolution (the `try`/`catch` status update plus the
`finally` decrement) is another. -/

structure AppState where
  jobs : List ProcessJob
  activeJobsCount : Int
  inflight : List String
deriving DecidableEq, Repr

/-- The synchronous prefix of `processJob(jobToProcess)`: the missing-file
guard marks the job `error` and returns without touching the counter;
otherwise `setActiveJobsCount(prev => prev + 1)` runs and the pipeline is
now in flight. -/
def processJobStart (s : AppState) (jobToProcess : ProcessJob) : AppState :=
  match jobToProcess.file with
  | none =>
    { s with jobs := s.jobs.map fun j =>
        if j.id = jobToProcess.id then
          { j with status := .error,
                   errorMessage := some "File not available. Please re-upload to process." }
        else j }
  | some _ =>
    { s with activeJobsCount := s.activeJobsCount + 1,
             inflight := jobToProcess.id :: s.inflight }

/-- One run of the admission `useEffect`: with `availableSlots =
MAX_CONCURRENT_JOBS - activeJobsCount` positive, the first `availableSlots`
currently-`queued` jobs (in queue order) are flipped to `processing` by id
match and each is dispatched to `processJob`. -/
def schedulerRun (s : AppState) : AppState :=
  let availableSlots : Int := (MAX_CONCURRENT_JOBS : Int) - s.activeJobsCount
  if availableSlots ≤ 0 then s
  else
    let jobsToStart := (s.jobs.filter fun job => decide (job.status = .queued)).take availableSlots.toNat
    if jobsToStart.isEmpty then s
    else
      let flipped := { s with jobs := s.jobs.map fun j =>
        (if jobsToStart.any (fun js => decide (js.id = j.id)) then { j with status := .processing }
         else j) }
      jobsToStart.foldl processJobStart flipped

/-- Resolution of a successful pipeline for `jobId`: the `success` update of
`processJob` plus the `finally` decrement. -/
def settleSuccess (jobId : String) (sheets : List SheetData) (s : AppState) : AppState :=
  { jobs := s.jobs.map fun j =>
      if j.id = jobId then
        { j with status := .success, extractedSheets := some sheets, progressMessage := none }
      else j,
    activeJobsCount := s.activeJobsCount - 1,
    inflight := s.inflight.erase jobId }

/-- Resolution of a failed pipeline for `jobId`: the `catch` update of
`processJob` plus the `finally` decrement. -/
def settleError (jobId : String) (message : String) (s : AppState) : AppState :=
  { jobs := s.jobs.map fun j =>
      if j.id = jobId then
        { j with status := .error, errorMessage := some message, progressMessage := none }
      else j,
    activeJobsCount := s.activeJobsCount - 1,
    inflight := s.inflight.erase jobId }

/-- A mid-pipeline `progressMessage` update issued by `processJob`. -/
def progressUpdate (jobId : String) (message : String) (s : AppState) : AppState :=
  { s with jobs := s.jobs.map fun j =>
      if j.id = jobId then { j with progressMessage := some message } else j }

/-- Queue effect of `handleFileSelect` on the app state. -/
def fileSelectStep (conversionMode : ConversionMode) (files : List JsFile) (s : AppState) : AppState :=
  { s with jobs := (handleFileSelect conversionMode files s.jobs).1 }

/-- Queue effect of `handleRetry`. -/
def retryStep (jobId : String) (s : AppState) : AppState :=
  { s with jobs := handleRetry jobId s.jobs }

/-- Queue effect of `handleRetrySelected`. -/
def retrySelectedStep (selectedJobIds : Finset String) (s : AppState) : AppState :=
  { s with jobs := (handleRetrySelected s.jobs selectedJobIds).1 }

/-- Queue effect of `handleDeleteSelected`. -/
def deleteSelectedStep (selectedJobIds : Finset String) (s : AppState) : AppState :=
  { s with jobs := s.jobs.filter fun job => decide (job.id ∉ selectedJobIds) }

/-- Queue effect of `handleClearAll` (also what a conversion-mode switch does). -/
def clearAllStep (s : AppState) : AppState :=
  { s with jobs := [] }

/-- Queue effect of `handleClearCompleted`. -/
def clearCompletedStep (s : AppState) : AppState :=
  { s with jobs := s.jobs.filter fun job =>
      decide (job.status = .queued) || decide (job.status = .processing) }

/-- Queue effect of `handlePageRangeChange`. -/
def pageRangeChangeStep (jobId : String) (range : String) (s : AppState) : AppState :=
  { s with jobs := s.jobs.map fun j =>
      if j.id = jobId then { j with pageRange := some range } else j }

/-- Queue effect of `handleSaveChanges` committing an edit session. -/
def saveChangesStep (viewingId : String) (editedData : List SheetData) (s : AppState) : AppState :=
  { s with jobs := s.jobs.map fun j =>
      if j.id = viewingId then { j with extractedSheets := some editedData } else j }

/-- Queue effect of `handleSavePdfOptions`. -/
def savePdfOptionsStep (jobId : String) (newOptions : PdfOptions) (s : AppState) : AppState :=
  { s with jobs := s.jobs.map fun j =>
      if j.id = jobId then { j with pdfOptions := some newOptions } else j }

/-- Queue effect of `handleDownload` on a rendered `success` job. -/
def downloadStep (externalOutcome : Except String Unit) (job : ProcessJob) (s : AppState) : AppState :=
  { s with jobs := handleDownload externalOutcome job s.jobs }

/-- The app state at process start: the restored queue, counter `0`, no
pipeline in flight. -/
def initialState (savedJobs : List ProcessJob) : AppState :=
  { jobs := restoreJobs savedJobs, activeJobsCount := 0, inflight := [] }

/-- Every state transition of the coordinator except file selection: the
reactive scheduler run, pipeline resolutions and progress updates (only for
pipelines actually in flight), and the remaining user actions with the
guards the UI enforces (retry is rendered only on `error` jobs and enabled
only with a file handle; download is rendered only on `success` jobs). -/
inductive UiStep : AppState → AppState → Prop
  | scheduler (s : AppState) : UiStep s (schedulerRun s)
  | settleOk (s : AppState) (jobId : String) (sheets : List SheetData) :
      jobId ∈ s.inflight → UiStep s (settleSuccess jobId sheets s)
  | settleErr (s : AppState) (jobId : String) (message : String) :
      jobId ∈ s.inflight → UiStep s (settleError jobId message s)
  | progress (s : AppState) (jobId : String) (message : String) :
      jobId ∈ s.inflight → UiStep s (progressUpdate jobId message s)
  | retry (s : AppState) (jobId : String) :
      (∃ job ∈ s.jobs, job.id = jobId ∧ job.status = .error ∧ job.file.isSome) →
      UiStep s (retryStep jobId s)
  | retrySelected (s : AppState) (selectedJobIds : Finset String) :
      UiStep s (retrySelectedStep selectedJobIds s)
  | deleteSelected (s : AppState) (selectedJobIds : Finset String) :
      UiStep s (deleteSelectedStep selectedJobIds s)
  | clearAll (s : AppState) : UiStep s (clearAllStep s)
  | clearCompleted (s : AppState) : UiStep s (clearCompletedStep s)
  | pageRange (s : AppState) (jobId : String) (range : String) :
      UiStep s (pageRangeChangeStep jobId range s)
  | saveChanges (s : AppState) (viewingId : String) (editedData : List SheetData) :
      UiStep s (saveChangesStep viewingId editedData s)
  | savePdfOptions (s : AppState) (jobId : String) (newOptions : PdfOptions) :
      UiStep s (savePdfOptionsStep jobId newOptions s)
  | download (s : AppState) (externalOutcome : Except String Unit) (job : ProcessJob) :
      job ∈ s.jobs → job.status = .success →
      UiStep s (downloadStep externalOutcome job s)

/-- States the running app can be in, with arbitrary file selections. -/
inductive Reachable : AppState → Prop
  | init (savedJobs : List ProcessJob) : Reachable (initialState savedJobs)
  | step {s t : AppState} : Reachable s → UiStep s t → Reachable t
  | fileSelect {s : AppState} (conversionMode : ConversionMode) (files : List JsFile) :
      Reachable s → Reachable (fileSelectStep conversionMode files s)

/-- Freshness discipline for added files: their derived job ids are pairwise
distinct and collide with no job already in the queue. -/
def freshFiles (files : List JsFile) (jobs : List ProcessJob) : Prop :=
  (files.map jobIdOfFile).Nodup ∧ ∀ f ∈ files, jobIdOfFile f ∉ jobs.map ProcessJob.id

/-- Reachability under unique job identities: the restored snapshot has
pairwise-distinct ids and every file selection adds only fresh ids. -/
inductive ReachableFresh : AppState → Prop
  | init (savedJobs : List ProcessJob) :
      (savedJobs.map ProcessJob.id).Nodup → ReachableFresh (initialState savedJobs)
  | step {s t : AppState} : ReachableFresh s → UiStep s t → ReachableFresh t
  | fileSelect {s : AppState} (conversionMode : ConversionMode) (files : List JsFile) :
      ReachableFresh s → freshFiles files s.jobs →
      ReachableFresh (fileSelectStep conversionMode files s)

/-- Ids of the jobs whose status is `processing`, with multiplicity. -/
def procIds (jobs : List ProcessJob) : Multiset String :=
  ((jobs.filter fun j => decide (j.status = .processing)).map ProcessJob.id : List String)

/-- Number of jobs whose status is `processing`. -/
def countProcessing (jobs : List ProcessJob) : Nat :=
  (jobs.filter fun j => decide (j.status = .processing)).length

/-- The scheduler invariant: the counter counts the in-flight pipelines,
never more than the ceiling; every `processing` job is covered by an
in-flight pipeline with its id; job ids are pairwise distinct. -/
def QueueInv (s : AppState) : Prop :=
  s.activeJobsCount = (s.inflight.length : Int)
  ∧ s.inflight.length ≤ MAX_CONCURRENT_JOBS
  ∧ procIds s.jobs ≤ (s.inflight : Multiset String)
  ∧ (s.jobs.map ProcessJob.id).Nodup

/-! ## Claim theorems: persistence restore (C3), missing-file guard (C4),
counter pairing (C2), file selection (C10) -/

/-- C3: restoring a persisted snapshot maps every saved `processing` or
`queued` job to `error` with the fixed interruption message and no file
handle; every other job keeps its status, error message and result sheets
but also loses the handle; and retry is disabled for every restored job
(its handle is absent). -/
theorem c3_queue_restore_spec (savedJobs : List ProcessJob) :
    restoreJobs savedJobs = savedJobs.map restoreJob
    ∧ (∀ job : ProcessJob,
        ((job.status = .processing ∨ job.status = .queued) →
          (restoreJob job).status = .error
          ∧ (restoreJob job).errorMessage =
              some "Processing was interrupted. Please re-upload to retry."
          ∧ (restoreJob job).file = none)
        ∧ (¬(job.status = .processing ∨ job.status = .queued) →
          (restoreJob job).status = job.status
          ∧ (restoreJob job).errorMessage = job.errorMessage
          ∧ (restoreJob job).extractedSheets = job.extractedSheets
          ∧ (restoreJob job).file = none))
    ∧ (∀ j ∈ restoreJobs savedJobs, retryButtonDisabled j = true) := by
  refine ⟨rfl, ?_, ?_⟩
  · intro job
    constructor
    · intro h
      unfold restoreJob
      rw [if_pos h]
      exact ⟨rfl, rfl, rfl⟩
    · intro h
      unfold restoreJob
      rw [if_neg h]
      exact ⟨rfl, rfl, rfl, rfl⟩
  · intro j hj
    rw [restoreJobs, List.mem_map] at hj
    obtain ⟨a, _, rfl⟩ := hj
    unfold restoreJob retryButtonDisabled
    by_cases h : a.status = .processing ∨ a.status = .queued
    · rw [if_pos h]
      rfl
    · rw [if_neg h]
      rfl

/-- Witness for C3 at a concrete interrupted job. -/
theorem c3_queue_restore_witness :
    (restoreJob { id := "a", status := .processing }).status = .error
    ∧ (restoreJob { id := "a", status := .processing }).file = none :=
  ⟨(((c3_queue_restore_spec []).2.1 { id := "a", status := .processing }).1 (Or.inl rfl)).1,
   (((c3_queue_restore_spec []).2.1 { id := "a", status := .processing }).1 (Or.inl rfl)).2.2⟩

/-- C4: invoking `processJob` on a job without a source handle yields only
the immediate `error` update with its descriptive message: no page
rendering, no extraction call, no spreadsheet read, and the active-jobs
counter is never touched. -/
theorem c4_missing_file_guard (job : ProcessJob) (oc : PipelineOutcome)
    (h : job.file = none) :
    processJobTrace job oc =
      [.setStatus job.id .error (some "File not available. Please re-upload to process.")]
    ∧ (processJobTrace job oc).count .incActive = 0
    ∧ (processJobTrace job oc).count .decActive = 0
    ∧ (processJobTrace job oc).count .renderPages = 0
    ∧ (processJobTrace job oc).count .extractCall = 0
    ∧ (processJobTrace job oc).count .readSheet = 0 := by
  have ht : processJobTrace job oc =
      [.setStatus job.id .error (some "File not available. Please re-upload to process.")] := by
    unfold processJobTrace
    rw [h]
  rw [ht]
  refine ⟨rfl, ?_, ?_, ?_, ?_, ?_⟩ <;> simp [List.count_cons]

/-- Witness for C4 at a concrete handle-less job. -/
theorem c4_missing_file_guard_witness :
    processJobTrace { id := "w", status := .queued, file := none }
        { convertResult := .ok [], extractResult := .ok [], readResult := .ok [] } =
      [.setStatus "w" .error (some "File not available. Please re-upload to process.")] :=
  (c4_missing_file_guard { id := "w", status := .queued, file := none }
    { convertResult := .ok [], extractResult := .ok [], readResult := .ok [] } rfl).1

/-- The `try` body of `processJob` never touches the active-jobs counter. -/
lemma pipelineBody_no_counter (job : ProcessJob) (oc : PipelineOutcome) :
    (pipelineBody job oc).count .incActive = 0
    ∧ (pipelineBody job oc).count .decActive = 0
    ∧ traceDelta (pipelineBody job oc) = 0 := by
  cases hm : job.conversionMode with
  | pdfToExcel =>
    cases hc : oc.convertResult with
    | error m => simp [pipelineBody, hm, hc, List.count_cons, traceDelta, activeDelta]
    | ok images =>
      cases he : oc.extractResult with
      | error m => simp [pipelineBody, hm, hc, he, List.count_cons, traceDelta, activeDelta]
      | ok raw => simp [pipelineBody, hm, hc, he, List.count_cons, traceDelta, activeDelta]
  | excelToPdf =>
    cases hr : oc.readResult with
    | error m => simp [pipelineBody, hm, hr, List.count_cons, traceDelta, activeDelta]
    | ok raw =>
      by_cases hz : raw.length = 0 <;>
        simp [pipelineBody, hm, hr, hz, List.count_cons, traceDelta, activeDelta]

/-- Every `processJob` run has zero net effect on the counter. -/
lemma processJobTrace_delta (job : ProcessJob) (oc : PipelineOutcome) :
    traceDelta (processJobTrace job oc) = 0 := by
  cases hf : job.file with
  | none => simp [processJobTrace, hf, traceDelta, activeDelta]
  | some f =>
    have hb := (pipelineBody_no_counter job oc).2.2
    simp only [processJobTrace, hf, traceDelta, List.map_cons, List.map_append,
      List.sum_cons, List.sum_append, List.map_nil] at *
    simp [activeDelta]
    omega

/-- C2: a dispatched `processJob` run on a job holding its source file
increments the counter exactly once, first, and decrements it exactly once,
last — whatever the pipeline outcome — so the sum of counter deltas over
any collection of dispatched runs is zero: once all pipelines settle the
counter is back at its initial value `0`. -/
theorem c2_counter_pairing :
    (∀ (job : ProcessJob) (oc : PipelineOutcome), job.file.isSome →
      ∃ body, processJobTrace job oc = .incActive :: (body ++ [.decActive])
        ∧ body.count .incActive = 0
        ∧ body.count .decActive = 0
        ∧ (processJobTrace job oc).count .incActive = 1
        ∧ (processJobTrace job oc).count .decActive = 1)
    ∧ ∀ runs : List (ProcessJob × PipelineOutcome),
        (runs.map fun r => traceDelta (processJobTrace r.1 r.2)).sum = 0 := by
  constructor
  · intro job oc hfile
    cases hf : job.file with
    | none => rw [hf] at hfile; simp at hfile
    | some f =>
      refine ⟨pipelineBody job oc, ?_, (pipelineBody_no_counter job oc).1,
        (pipelineBody_no_counter job oc).2.1, ?_, ?_⟩
      · simp [processJobTrace, hf]
      · have h1 := (pipelineBody_no_counter job oc).1
        simp [processJobTrace, hf, List.count_cons, List.count_append, h1]
      · have h2 := (pipelineBody_no_counter job oc).2.1
        simp [processJobTrace, hf, List.count_cons, List.count_append, h2]
  · intro runs
    apply List.sum_eq_zero
    intro x hx
    rw [List.mem_map] at hx
    obtain ⟨r, _, rfl⟩ := hx
    exact processJobTrace_delta r.1 r.2

/-- Witness for C2 at a concrete job and pipeline outcome. -/
theorem c2_counter_pairing_witness :
    (processJobTrace
        { id := "w", status := .processing, file := some { name := "w", lastModified := 0, size := 0 } }
        { convertResult := .ok [], extractResult := .ok [], readResult := .ok [] }).count
      .incActive = 1 :=
  ((c2_counter_pairing.1
      { id := "w", status := .processing, file := some { name := "w", lastModified := 0, size := 0 } }
      { convertResult := .ok [], extractResult := .ok [], readResult := .ok [] }
      rfl).choose_spec.2.2.2.1)

/-- C10: adding files keeps exactly the previously queued and processing
jobs, in order, appends the newly created jobs, and clears the selection. -/
theorem c10_file_select_spec (conversionMode : ConversionMode) (files : List JsFile)
    (prevJobs : List ProcessJob) :
    (handleFileSelect conversionMode files prevJobs).1
      = (prevJobs.filter fun job =>
          decide (job.status = .queued) || decide (job.status = .processing))
        ++ files.map (mkNewJob conversionMode)
    ∧ (∀ job ∈ prevJobs, (job.status = .success ∨ job.status = .error) →
        job ∉ (handleFileSelect conversionMode files prevJobs).1)
    ∧ (∀ j ∈ (handleFileSelect conversionMode files prevJobs).1,
        (j ∈ prevJobs ∧ (j.status = .queued ∨ j.status = .processing))
        ∨ ∃ f ∈ files, j = mkNewJob conversionMode f)
    ∧ (handleFileSelect conversionMode files prevJobs).2 = ∅ := by
  refine ⟨rfl, ?_, ?_, rfl⟩
  · intro job _ hstat hmem
    rcases List.mem_append.mp hmem with hf | hn
    · have := (List.mem_filter.mp hf).2
      rcases hstat with h | h <;> simp [h] at this
    · rw [List.mem_map] at hn
      obtain ⟨f, _, hjf⟩ := hn
      have : job.status = .queued := by
        rw [← hjf]
        rfl
      rcases hstat with h | h <;> rw [h] at this <;> exact ProcessJobStatus.noConfusion this
  · intro j hj
    rcases List.mem_append.mp hj with hf | hn
    · left
      refine ⟨(List.mem_filter.mp hf).1, ?_⟩
      have hp := (List.mem_filter.mp hf).2
      simp only [Bool.or_eq_true, decide_eq_true_eq] at hp
      exact hp
    · right
      rw [List.mem_map] at hn
      obtain ⟨f, hfmem, hjf⟩ := hn
      exact ⟨f, hfmem, hjf.symm⟩

/-- Witness for C10 at a concrete queue. -/
theorem c10_file_select_witness :
    ({ id := "done", status := .success } : ProcessJob)
      ∉ (handleFileSelect .pdfToExcel [] [{ id := "done", status := .success }]).1 :=
  (c10_file_select_spec .pdfToExcel [] [{ id := "done", status := .success }]).2.1
    { id := "done", status := .success } (by simp) (Or.inl rfl)

/-! ## Claim theorem: page-range parsing (C5) -/

/-- The base enumeration `[1..n]` is strictly ascending. -/
lemma range_succ_sorted (n : Nat) : ((List.range n).map (· + 1)).Sorted (· < ·) :=
  List.Pairwise.map _ (fun _ _ h => Nat.succ_lt_succ h) (List.pairwise_lt_range n)

/-- C5: for every range expression and maximum, the parse result is strictly
ascending and duplicate-free and every element lies in `[1, maxValue]`;
empty or whitespace-only input yields exactly `[1..maxValue]`; and the
spec's concrete examples hold (out-of-bound, non-numeric and reversed
tokens contribute nothing). -/
theorem c5_parse_page_range_spec (rangeStr : String) (maxValue : Nat) :
    (parsePageRange rangeStr maxValue).Sorted (· < ·)
    ∧ (parsePageRange rangeStr maxValue).Nodup
    ∧ (∀ x ∈ parsePageRange rangeStr maxValue, 1 ≤ x ∧ x ≤ maxValue)
    ∧ (trimChars rangeStr.toList = [] →
        parsePageRange rangeStr maxValue = (List.range maxValue).map (· + 1))
    ∧ parsePageRange "" 5 = [1, 2, 3, 4, 5]
    ∧ parsePageRange "2,4-5" 5 = [2, 4, 5]
    ∧ parsePageRange "9" 5 = []
    ∧ parsePageRange "0-2" 5 = [1, 2]
    ∧ parsePageRange "5-2" 5 = [] := by
  have hsorted : (parsePageRange rangeStr maxValue).Sorted (· < ·) := by
    unfold parsePageRange
    split
    · exact range_succ_sorted maxValue
    · exact (range_succ_sorted maxValue).sublist (List.filter_sublist _)
  refine ⟨hsorted, hsorted.nodup, ?_, ?_, by decide, by decide, by decide, by decide, by decide⟩
  · intro x hx
    have hbase : x ∈ (List.range maxValue).map (· + 1) := by
      unfold parsePageRange at hx
      rcases Classical.em (trimChars rangeStr.toList = []) with h | h
      · rwa [if_pos h] at hx
      · rw [if_neg h] at hx
        exact List.mem_of_mem_filter hx
    rw [List.mem_map] at hbase
    obtain ⟨i, hi, rfl⟩ := hbase
    rw [List.mem_range] at hi
    omega
  · intro h
    unfold parsePageRange
    rw [if_pos h]

/-- Witness for C5 at a concrete expression. -/
theorem c5_parse_page_range_witness :
    2 ∈ parsePageRange "2,4-5" 5 ∧ 1 ≤ 2 ∧ 2 ≤ 5 :=
  ⟨by decide, (c5_parse_page_range_spec "2,4-5" 5).2.2.1 2 (by decide)⟩

/-! ## Claim theorem: style patching (C6) -/

/-- Lookup through `mapFrom`. -/
lemma mapFrom_getElem? (f : Nat → α → α) (l : List α) : ∀ (i n : Nat),
    (mapFrom f i l)[n]? = (l[n]?).map (f (i + n)) := by
  induction l with
  | nil => intro i n; simp [mapFrom]
  | cons a as ih =>
    intro i n
    cases n with
    | zero => simp [mapFrom]
    | succ m =>
      have h := ih (i + 1) m
      simp only [mapFrom, List.getElem?_cons_succ]
      rw [h]
      have : i + 1 + m = i + (m + 1) := by omega
      rw [this]

/-- Lookup through the rectangle update of one sheet's rows. -/
lemma styleRect_lookup (sel : SelectionRect) (patch : CellStylePatch)
    (rows : List (List CellData)) (r c : Nat) :
    ((styleCellsInRect sel patch rows)[r]?.bind fun row => row[c]?)
      = (rows[r]?.bind fun row => row[c]?).map
          (fun cell =>
            if sel.start.row ≤ r ∧ r ≤ sel.stop.row ∧ sel.start.col ≤ c ∧ c ≤ sel.stop.col
            then styleCell patch cell else cell) := by
  unfold styleCellsInRect
  rw [mapFrom_getElem?, Nat.zero_add]
  cases hrow : rows[r]? with
  | none => rfl
  | some row =>
    simp only [Option.map_some', Option.some_bind]
    by_cases hr : sel.start.row ≤ r ∧ r ≤ sel.stop.row
    · rw [if_pos hr, mapFrom_getElem?, Nat.zero_add]
      cases hcell : row[c]? with
      | none => rfl
      | some cell =>
        simp only [Option.map_some']
        by_cases hcc : sel.start.col ≤ c ∧ c ≤ sel.stop.col
        · rw [if_pos hcc, if_pos ⟨hr.1, hr.2, hcc.1, hcc.2⟩]
        · rw [if_neg hcc, if_neg (fun h => hcc ⟨h.2.2.1, h.2.2.2⟩)]
    · rw [if_neg hr]
      cases hcell : row[c]? with
      | none => rfl
      | some cell =>
        simp only [Option.map_some']
        rw [if_neg (fun h => hr ⟨h.1, h.2.1⟩)]

/-- C6: with a null selection `handleStyleChange` is a no-op; with a
rectangle it merges the patch into the style of exactly the addressed
sheet's cells inside the rectangle — values untouched, cells outside the
rectangle and other sheets untouched; the merge keeps every style field the
patch does not name; and merging `{bold: true}` into `{color: "#fff"}`
keeps the color. -/
theorem c6_apply_style_spec (sheets : List SheetData) (sheetIndex : Nat)
    (sel : SelectionRect) (patch : CellStylePatch) (prevData : Option (List SheetData)) :
    handleStyleChange sheetIndex none patch prevData = prevData
    ∧ (∃ newSheets, handleStyleChange sheetIndex (some sel) patch (some sheets) = some newSheets
        ∧ ∀ si r c, cellAt newSheets si r c = (cellAt sheets si r c).map (fun cell =>
            if si = sheetIndex ∧ sel.start.row ≤ r ∧ r ≤ sel.stop.row
                ∧ sel.start.col ≤ c ∧ c ≤ sel.stop.col
            then styleCell patch cell else cell))
    ∧ (∀ cell : CellData, (styleCell patch cell).value = cell.value)
    ∧ (∀ currentStyle : CellStyle,
        (patch.bold = none → (spreadStyle currentStyle patch).bold = currentStyle.bold)
        ∧ (patch.italic = none → (spreadStyle currentStyle patch).italic = currentStyle.italic)
        ∧ (patch.underline = none →
            (spreadStyle currentStyle patch).underline = currentStyle.underline)
        ∧ (patch.strikethrough = none →
            (spreadStyle currentStyle patch).strikethrough = currentStyle.strikethrough)
        ∧ (patch.color = none → (spreadStyle currentStyle patch).color = currentStyle.color)
        ∧ (patch.align = none → (spreadStyle currentStyle patch).align = currentStyle.align))
    ∧ spreadStyle { color := some "#fff" } { bold := some (some true) }
        = { bold := some true, color := some "#fff" } := by
  refine ⟨rfl, ?_, fun cell => rfl, ?_, by decide⟩
  · refine ⟨_, rfl, ?_⟩
    intro si r c
    unfold cellAt
    rw [mapFrom_getElem?, Nat.zero_add]
    cases hsh : sheets[si]? with
    | none => rfl
    | some sh =>
      simp only [Option.map_some', Option.some_bind]
      by_cases hsi : si = sheetIndex
      · rw [if_pos hsi]
        simp only
        rw [styleRect_lookup]
        cases hcell : (sh.data[r]?.bind fun row => row[c]?) with
        | none => rfl
        | some cell =>
          simp only [Option.map_some']
          by_cases hrc : sel.start.row ≤ r ∧ r ≤ sel.stop.row
              ∧ sel.start.col ≤ c ∧ c ≤ sel.stop.col
          · rw [if_pos hrc, if_pos ⟨hsi, hrc⟩]
          · rw [if_neg hrc, if_neg (fun h => hrc h.2)]
      · rw [if_neg hsi]
        cases hcell : (sh.data[r]?.bind fun row => row[c]?) with
        | none => rfl
        | some cell =>
          simp only [Option.map_some']
          rw [if_neg (fun h => hsi h.1)]
  · intro currentStyle
    refine ⟨?_, ?_, ?_, ?_, ?_, ?_⟩ <;> intro h <;> simp [spreadStyle, h]

/-- Witness for C6: a patch naming no color field keeps an existing color. -/
theorem c6_apply_style_witness :
    ((spreadStyle { color := some "#abc" } { bold := some (some true) }).color
      = some "#abc") :=
  (((c6_apply_style_spec [] 0 { start := ⟨0, 0⟩, stop := ⟨0, 0⟩ }
      { bold := some (some true) } none).2.2.2.1 { color := some "#abc" }).2.2.2.2.1 rfl)

/-! ## Claim theorems: download failure (C7) -/

/-- A small two-row sheet used in the download counterexample. -/
def c7Sheet (nm : String) : SheetData :=
  { sheetName := nm, data := [[{ value := "h" }], [{ value := "v" }]] }

/-- A successfully converted spreadsheet job whose sheet-range filter `"5"`
matches none of its three sheets. -/
def c7Job : ProcessJob :=
  { id := "book.xlsx-1-1",
    fileName := "book.xlsx",
    status := .success,
    conversionMode := .excelToPdf,
    extractedSheets := some [c7Sheet "S1", c7Sheet "S2", c7Sheet "S3"],
    pageRange := some "5" }

/-- C7 counterexample: a download failure on a `success` job does *not*
leave the status `success` — `handleDownload`'s catch rewrites the job to
`error` with the failure message (while `extractedSheets` stays intact). -/
theorem c7_counterexample :
    (handleDownload (.ok ()) c7Job [c7Job]).map ProcessJob.status = [.error]
    ∧ ¬ (handleDownload (.ok ()) c7Job [c7Job]).map ProcessJob.status = [.success]
    ∧ (handleDownload (.ok ()) c7Job [c7Job]).map ProcessJob.errorMessage
        = [some "No sheets match the specified range: \"5\". Please check your input."]
    ∧ (handleDownload (.ok ()) c7Job [c7Job]).map ProcessJob.extractedSheets
        = [some [c7Sheet "S1", c7Sheet "S2", c7Sheet "S3"]] := by
  refine ⟨?_, ?_, ?_, ?_⟩ <;> decide

/-- C7 as amended: when the download step of a job fails, `handleDownload`
transitions that job to `error` carrying the failure message and leaves all
its other fields — `extractedSheets` included — and all other jobs
unchanged; a successful download (or a job without result sheets) changes
nothing; and for a spreadsheet-to-document job whose resolved sheet
selection is empty the download step always fails. -/
theorem c7_download_failure_spec (externalOutcome : Except String Unit)
    (job : ProcessJob) (jobs : List ProcessJob) :
    (job.extractedSheets = none → handleDownload externalOutcome job jobs = jobs)
    ∧ (∀ sheets, job.extractedSheets = some sheets →
        downloadResult externalOutcome job sheets = .ok () →
        handleDownload externalOutcome job jobs = jobs)
    ∧ (∀ sheets message, job.extractedSheets = some sheets →
        downloadResult externalOutcome job sheets = .error message →
        ∀ i : Nat, (handleDownload externalOutcome job jobs)[i]? = (jobs[i]?).map fun j =>
          if j.id = job.id then { j with status := .error, errorMessage := some message }
          else j)
    ∧ (∀ sheets : List SheetData, job.conversionMode = .excelToPdf →
        parsePageRange (job.pageRange.getD "") sheets.length = [] →
        ∃ message, downloadResult externalOutcome job sheets = .error message) := by
  refine ⟨?_, ?_, ?_, ?_⟩
  · intro h
    unfold handleDownload
    rw [h]
  · intro sheets hs hok
    unfold handleDownload
    rw [hs]
    dsimp only
    rw [hok]
  · intro sheets message hs herr i
    unfold handleDownload
    rw [hs]
    dsimp only
    rw [herr]
    exact List.getElem?_map _ jobs i
  · intro sheets hmode hparse
    refine ⟨"No sheets match the specified range: \"" ++ jsInterp job.pageRange
      ++ "\". Please check your input.", ?_⟩
    unfold downloadResult
    rw [if_neg (by rw [hmode]; exact fun h => ConversionMode.noConfusion h)]
    have hfilter :
        (sheets.enum.filter fun p =>
          (parsePageRange (job.pageRange.getD "") sheets.length).contains (p.1 + 1)) = [] := by
      rw [hparse]
      apply List.filter_eq_nil_iff.mpr
      intro a _
      simp
    unfold downloadPdfFromSheets
    dsimp only
    rw [hfilter]
    rfl

/-- Witness for the amended C7 at a concrete failing download. -/
theorem c7_download_failure_witness :
    (handleDownload (.ok ()) c7Job [c7Job])[0]? = ((([c7Job] : List ProcessJob)[0]?).map fun j =>
      if j.id = c7Job.id then
        { j with status := .error,
                 errorMessage :=
                   some "No sheets match the specified range: \"5\". Please check your input." }
      else j) :=
  (c7_download_failure_spec (.ok ()) c7Job [c7Job]).2.2.1
    [c7Sheet "S1", c7Sheet "S2", c7Sheet "S3"]
    "No sheets match the specified range: \"5\". Please check your input."
    rfl rfl 0

/-! ## Claim theorems: retry (C8) -/

/-- A concrete file for the retry counterexample. -/
def c8File : JsFile := { name := "a.pdf", lastModified := 1, size := 9 }

/-- An `error` job that still holds its file. -/
def c8JobWithFile : ProcessJob := { id := "dup", status := .error, file := some c8File }

/-- A second `error` job with the same id whose file handle is absent
(e.g. restored from a persisted snapshot, or re-added and failed). -/
def c8JobNoFile : ProcessJob := { id := "dup", status := .error, file := none }

/-- C8 counterexample: with two `error` jobs sharing one id — the first
holding its file, the second without a handle — both single retry
(invocable, since the first job's button is enabled) and batch retry
transition the *file-less* job back to `queued`. -/
theorem c8_counterexample :
    (handleRetry "dup" [c8JobWithFile, c8JobNoFile]).map ProcessJob.status
      = [.queued, .queued]
    ∧ (handleRetrySelected [c8JobWithFile, c8JobNoFile] {"dup"}).1.map ProcessJob.status
      = [.queued, .queued]
    ∧ (handleRetrySelected [c8JobWithFile, c8JobNoFile] {"dup"}).1.map ProcessJob.file
      = [some c8File, none]
    ∧ retryButtonDisabled c8JobWithFile = false := by
  refine ⟨?_, ?_, ?_, ?_⟩ <;> decide

/-- Membership from an index lookup. -/
lemma mem_of_lookup {α : Type} {l : List α} {i : Nat} {a : α} (h : l[i]? = some a) : a ∈ l := by
  obtain ⟨hlt, rfl⟩ := List.getElem?_eq_some_iff.mp h
  exact List.getElem_mem hlt

/-- With pairwise-distinct ids, the retry-selected filter accepts exactly
the ids of `error` jobs still holding their file. -/
lemma retrySelectable_eq (jobs : List ProcessJob) (j : ProcessJob)
    (hnd : (jobs.map ProcessJob.id).Nodup) (hj : j ∈ jobs) :
    retrySelectable jobs j.id = true ↔ (j.status = .error ∧ j.file.isSome) := by
  unfold retrySelectable
  have hsome : (jobs.find? fun x => decide (x.id = j.id)).isSome := by
    rw [List.find?_isSome]
    exact ⟨j, hj, by simp⟩
  obtain ⟨w, hw⟩ := Option.isSome_iff_exists.mp hsome
  rw [hw]
  have hwmem := List.mem_of_find?_eq_some hw
  have hwp := List.find?_some hw
  have hwid : w.id = j.id := of_decide_eq_true hwp
  have hwj : w = j := List.inj_on_of_nodup_map hnd hwmem hj hwid
  rw [hwj]
  simp

/-- C8 as amended: retry resets `errorMessage` and `extractedSheets` and
requeues, and — provided job ids are pairwise distinct — a job whose source
handle is absent is never modified by retry: single retry (whose UI guard
requires an `error` job with a file) and batch retry leave it exactly as it
was; batch retry always clears the selection; the retry button is disabled
whenever the handle is absent. -/
theorem c8_retry_spec (jobs : List ProcessJob) :
    (∀ jobId, (jobs.map ProcessJob.id).Nodup →
      (∃ g ∈ jobs, g.id = jobId ∧ g.status = .error ∧ g.file.isSome) →
      ∀ (i : Nat) (j j' : ProcessJob), jobs[i]? = some j → (handleRetry jobId jobs)[i]? = some j' →
        (j.id ≠ jobId → j' = j)
        ∧ (j.id = jobId →
            j' = { j with status := .queued, errorMessage := none, extractedSheets := none }
            ∧ j.status = .error ∧ j.file.isSome)
        ∧ (j'.file = none → j' = j))
    ∧ (∀ sel : Finset String, (jobs.map ProcessJob.id).Nodup →
      ∀ (i : Nat) (j j' : ProcessJob),
        jobs[i]? = some j → (handleRetrySelected jobs sel).1[i]? = some j' →
        ((j.id ∈ sel ∧ j.status = .error ∧ j.file.isSome) →
          j' = { j with status := .queued, errorMessage := none, extractedSheets := none })
        ∧ (¬(j.id ∈ sel ∧ j.status = .error ∧ j.file.isSome) → j' = j)
        ∧ (j'.file = none → j' = j))
    ∧ (∀ sel, (handleRetrySelected jobs sel).2 = ∅)
    ∧ (∀ job : ProcessJob, job.file = none → retryButtonDisabled job = true) := by
  refine ⟨?_, ?_, fun sel => rfl, ?_⟩
  · intro jobId hnd hguard i j j' hji hji'
    obtain ⟨g, hgmem, hgid, hgerr, hgfile⟩ := hguard
    have hjmem : j ∈ jobs := mem_of_lookup hji
    unfold handleRetry at hji'
    rw [List.getElem?_map, hji] at hji'
    simp only [Option.map_some'] at hji'
    have hj' := Option.some.inj hji'
    by_cases hid : j.id = jobId
    · have hjg : j = g := List.inj_on_of_nodup_map hnd hjmem hgmem (by rw [hid, hgid])
      refine ⟨fun h => absurd hid h, fun _ => ⟨?_, ?_, ?_⟩, fun hfile => ?_⟩
      · rw [← hj', if_pos hid]
      · rw [hjg]; exact hgerr
      · rw [hjg]; exact hgfile
      · exfalso
        rw [← hj', if_pos hid] at hfile
        have : j.file = none := hfile
        rw [hjg] at this
        rw [this] at hgfile
        exact Bool.noConfusion hgfile
    · rw [if_neg hid] at hj'
      exact ⟨fun _ => hj'.symm, fun h => absurd h hid, fun _ => hj'.symm⟩
  · intro sel hnd i j j' hji hji'
    have hjmem : j ∈ jobs := mem_of_lookup hji
    have hmem_iff : j.id ∈ sel.filter (fun id => retrySelectable jobs id = true)
        ↔ (j.id ∈ sel ∧ j.status = .error ∧ j.file.isSome) := by
      rw [Finset.mem_filter]
      exact and_congr_right fun _ => retrySelectable_eq jobs j hnd hjmem
    have heq : (handleRetrySelected jobs sel).1 =
        if 0 < (sel.filter (fun id => retrySelectable jobs id = true)).card then
          jobs.map fun job =>
            if job.id ∈ sel.filter (fun id => retrySelectable jobs id = true) then
              { job with status := .queued, errorMessage := none, extractedSheets := none }
            else job
        else jobs := rfl
    by_cases hpos : 0 < (sel.filter (fun id => retrySelectable jobs id = true)).card
    · rw [heq, if_pos hpos, List.getElem?_map, hji] at hji'
      simp only [Option.map_some'] at hji'
      have hj' := Option.some.inj hji'
      by_cases hD : j.id ∈ sel ∧ j.status = .error ∧ j.file.isSome
      · have hC := hmem_iff.mpr hD
        rw [if_pos hC] at hj'
        refine ⟨fun _ => hj'.symm, fun h => absurd hD h, fun hfile => ?_⟩
        exfalso
        rw [← hj'] at hfile
        have : j.file = none := hfile
        rw [this] at hD
        exact Bool.noConfusion hD.2.2
      · have hC : j.id ∉ sel.filter (fun id => retrySelectable jobs id = true) :=
          fun hc => hD (hmem_iff.mp hc)
        rw [if_neg hC] at hj'
        exact ⟨fun h => absurd h hD, fun _ => hj'.symm, fun _ => hj'.symm⟩
    · rw [heq, if_neg hpos, hji] at hji'
      have hj' := Option.some.inj hji'
      refine ⟨fun hD => ?_, fun _ => hj'.symm, fun _ => hj'.symm⟩
      exfalso
      apply hpos
      apply Finset.card_pos.mpr
      exact ⟨j.id, hmem_iff.mpr hD⟩
  · intro job h
    unfold retryButtonDisabled
    rw [h]
    rfl

/-- Witness for the amended C8: the retry button is disabled for a concrete
handle-less job. -/
theorem c8_retry_witness :
    retryButtonDisabled { id := "x", status := .error, file := none } = true :=
  (c8_retry_spec []).2.2.2 { id := "x", status := .error, file := none } rfl

/-! ## Claim theorems: select-all toggle (C9) -/

/-- A one-job page for the toggle counterexample. -/
def c9Job : ProcessJob := { id := "a", status := .success }

/-- C9 counterexample: when the visible page's single id is already
selected, the first toggle *removes* it instead of adding every visible id,
and two consecutive toggles end with the id selected rather than removed. -/
theorem c9_counterexample :
    handleToggleSelectAll [c9Job] {"a"} = (∅ : Finset String)
    ∧ "a" ∉ handleToggleSelectAll [c9Job] {"a"}
    ∧ handleToggleSelectAll [c9Job] (handleToggleSelectAll [c9Job] {"a"}) = {"a"} := by
  refine ⟨?_, ?_, ?_⟩ <;> decide

/-- C9 as amended: provided the visible jobs' ids are pairwise distinct and
not all of them are already selected (or the page is empty), the first
toggle adds every visible id and the second removes exactly the page's ids;
and an id not on the page is never added or removed by a toggle. -/
theorem c9_toggle_spec (page : List ProcessJob) (sel : Finset String) :
    ((page.map ProcessJob.id).Nodup →
      (page ≠ [] → ¬ (page.map ProcessJob.id).toFinset ⊆ sel) →
        handleToggleSelectAll page sel = sel ∪ (page.map ProcessJob.id).toFinset
        ∧ handleToggleSelectAll page (handleToggleSelectAll page sel)
            = sel \ (page.map ProcessJob.id).toFinset)
    ∧ ∀ x, x ∉ (page.map ProcessJob.id).toFinset →
        ((x ∈ handleToggleSelectAll page sel) ↔ x ∈ sel) := by
  constructor
  · intro hnd hns
    by_cases hpage : page = []
    · subst hpage
      constructor
      · unfold handleToggleSelectAll
        rw [if_neg (fun h => Nat.lt_irrefl 0 h.2)]
      · unfold handleToggleSelectAll
        rw [if_neg (fun h => Nat.lt_irrefl 0 h.2),
            if_neg (fun h => Nat.lt_irrefl 0 h.2)]
        simp
    · have hnsub : ¬ (page.map ProcessJob.id).toFinset ⊆ sel := hns hpage
      have hcard : (page.map ProcessJob.id).toFinset.card = page.length := by
        rw [List.toFinset_card_of_nodup hnd, List.length_map]
      have hcond1 : ¬ ((sel.filter (· ∈ (page.map ProcessJob.id).toFinset)).card
          = page.length ∧ 0 < page.length) := by
        rintro ⟨hc, _⟩
        apply hnsub
        rw [Finset.filter_mem_eq_inter] at hc
        have hsub : sel ∩ (page.map ProcessJob.id).toFinset
            ⊆ (page.map ProcessJob.id).toFinset := Finset.inter_subset_right
        have hle : (page.map ProcessJob.id).toFinset.card
            ≤ (sel ∩ (page.map ProcessJob.id).toFinset).card := by
          rw [hc, hcard]
        have := Finset.eq_of_subset_of_card_le hsub hle
        rw [← this]
        exact Finset.inter_subset_left
      have ht1 : handleToggleSelectAll page sel
          = sel ∪ (page.map ProcessJob.id).toFinset := by
        unfold handleToggleSelectAll
        rw [if_neg hcond1]
      refine ⟨ht1, ?_⟩
      rw [ht1]
      have hcond2 : ((sel ∪ (page.map ProcessJob.id).toFinset).filter
          (· ∈ (page.map ProcessJob.id).toFinset)).card = page.length
          ∧ 0 < page.length := by
        constructor
        · rw [Finset.filter_mem_eq_inter, Finset.union_inter_cancel_right, hcard]
        · exact List.length_pos.mpr hpage
      unfold handleToggleSelectAll
      rw [if_pos hcond2]
      exact Finset.union_sdiff_right sel (page.map ProcessJob.id).toFinset
  · intro x hx
    have hdef : handleToggleSelectAll page sel =
        if (sel.filter (· ∈ (page.map ProcessJob.id).toFinset)).card = page.length
            ∧ 0 < page.length
        then sel \ (page.map ProcessJob.id).toFinset
        else sel ∪ (page.map ProcessJob.id).toFinset := rfl
    rw [hdef]
    split
    · simp [Finset.mem_sdiff, hx]
    · simp [Finset.mem_union, hx]

/-- Witness for the amended C9 at a concrete page and empty selection. -/
theorem c9_toggle_witness :
    handleToggleSelectAll [{ id := "b", status := .queued }] ∅
      = (∅ : Finset String)
        ∪ (([{ id := "b", status := .queued }] : List ProcessJob).map ProcessJob.id).toFinset :=
  ((c9_toggle_spec [{ id := "b", status := .queued }] ∅).1 (by decide)
    (fun _ => by decide)).1

/-! ## Scheduler invariant lemmas (C1) -/

/-- Counting processing ids as a `countP` over the job list. -/
lemma count_procIds (x : String) (jobs : List ProcessJob) :
    (procIds jobs).count x
      = jobs.countP fun j => decide (j.status = .processing) && decide (j.id = x) := by
  unfold procIds
  rw [Multiset.coe_count]
  induction jobs with
  | nil => rfl
  | cons j l ih =>
    rw [List.filter_cons, List.countP_cons]
    by_cases h : decide (j.status = .processing) = true
    · rw [if_pos h, List.map_cons, List.count_cons, ih]
      by_cases hx : j.id = x <;> simp [h, hx]
    · rw [if_neg h, ih]
      simp only [Bool.and_eq_true] at *
      simp [h]

/-- A pointwise job rewrite that keeps ids and never introduces the
`processing` status only shrinks the processing-id multiset. -/
lemma procIds_map_le (jobs : List ProcessJob) (g : ProcessJob → ProcessJob)
    (hid : ∀ j, (g j).id = j.id)
    (hst : ∀ j, (g j).status = .processing → j.status = .processing) :
    procIds (jobs.map g) ≤ procIds jobs := by
  rw [Multiset.le_iff_count]
  intro x
  rw [count_procIds, count_procIds, List.countP_map]
  apply List.countP_mono_left
  intro j _ h
  simp only [Function.comp, Bool.and_eq_true, decide_eq_true_eq] at h ⊢
  rw [hid j] at h
  exact ⟨hst j h.1, h.2⟩

/-- Processing ids of a sublist are included in those of the full list. -/
lemma procIds_sublist_le {l1 l2 : List ProcessJob} (h : l1.Sublist l2) :
    procIds l1 ≤ procIds l2 := by
  unfold procIds
  exact Multiset.coe_le.mpr ((h.filter _).map _).subperm

/-- Processing ids of an append split. -/
lemma procIds_append (l1 l2 : List ProcessJob) :
    procIds (l1 ++ l2) = procIds l1 + procIds l2 := by
  unfold procIds
  rw [List.filter_append, List.map_append]
  exact (Multiset.coe_add _ _).symm

/-- Counting processing ids through a pointwise rewrite. -/
lemma count_procIds_map (x : String) (jobs : List ProcessJob) (f : ProcessJob → ProcessJob) :
    (procIds (jobs.map f)).count x
      = jobs.countP fun j => decide ((f j).status = .processing) && decide ((f j).id = x) := by
  rw [count_procIds, List.countP_map]
  apply List.countP_congr
  intro j _
  exact Iff.rfl

/-- Rewriting the job with a given id to a non-`processing` status removes
that id from the processing multiset. -/
lemma procIds_flipAt_le (jobs : List ProcessJob) (a : String) (g : ProcessJob → ProcessJob)
    (hid : ∀ j, (g j).id = j.id)
    (hnp : ∀ j, (g j).status ≠ .processing)
    (m : Multiset String) (hm : procIds jobs ≤ m) :
    procIds (jobs.map fun j => if j.id = a then g j else j) ≤ m.erase a := by
  rw [Multiset.le_iff_count]
  intro x
  rw [count_procIds_map]
  by_cases hxa : x = a
  · subst hxa
    have hz : (jobs.countP fun j =>
        decide ((if j.id = x then g j else j).status = .processing)
        && decide ((if j.id = x then g j else j).id = x)) = 0 := by
      rw [List.countP_eq_zero]
      intro j _
      by_cases hja : j.id = x
      · simp [hja, hnp j]
      · simp [hja]
    rw [hz]
    exact Nat.zero_le _
  · rw [Multiset.count_erase_of_ne hxa]
    have h1 : (jobs.countP fun j =>
          decide ((if j.id = a then g j else j).status = .processing)
          && decide ((if j.id = a then g j else j).id = x))
        ≤ jobs.countP fun j => decide (j.status = .processing) && decide (j.id = x) := by
      apply List.countP_mono_left
      intro j _ h
      simp only [Bool.and_eq_true, decide_eq_true_eq] at h ⊢
      by_cases hja : j.id = a
      · rw [if_pos hja] at h
        rw [hid j, hja] at h
        exact absurd h.2.symm hxa
      · rw [if_neg hja] at h
        exact h
    calc (jobs.countP fun j =>
          decide ((if j.id = a then g j else j).status = .processing)
          && decide ((if j.id = a then g j else j).id = x))
        ≤ jobs.countP fun j => decide (j.status = .processing) && decide (j.id = x) := h1
      _ = (procIds jobs).count x := (count_procIds x jobs).symm
      _ ≤ m.count x := Multiset.le_iff_count.mp hm x

/-- The admission flip: marking every job whose id appears among the
admitted jobs as `processing` adds at most those ids (given unique ids). -/
lemma procIds_flipProc_le (jobs starts : List ProcessJob)
    (hnd : (jobs.map ProcessJob.id).Nodup) :
    procIds (jobs.map fun j =>
      (if starts.any (fun js => decide (js.id = j.id)) then { j with status := .processing }
       else j))
      ≤ procIds jobs + ((starts.map ProcessJob.id : List String) : Multiset String) := by
  rw [Multiset.le_iff_count]
  intro x
  rw [Multiset.count_add, count_procIds_map, count_procIds, Multiset.coe_count]
  have hidflip : ∀ j : ProcessJob,
      ((if starts.any (fun js => decide (js.id = j.id)) then
          { j with status := ProcessJobStatus.processing } else j)).id = j.id := by
    intro j
    by_cases hc : (starts.any fun js => decide (js.id = j.id)) = true
    · rw [if_pos hc]
    · rw [if_neg hc]
  by_cases hx : x ∈ starts.map ProcessJob.id
  · have h1 : (jobs.countP fun j =>
          decide ((if starts.any (fun js => decide (js.id = j.id)) then
            { j with status := ProcessJobStatus.processing } else j).status = .processing)
          && decide ((if starts.any (fun js => decide (js.id = j.id)) then
            { j with status := ProcessJobStatus.processing } else j).id = x))
        ≤ jobs.countP fun j => decide (j.id = x) := by
      apply List.countP_mono_left
      intro j _ h
      simp only [Bool.and_eq_true, decide_eq_true_eq] at h ⊢
      rw [hidflip j] at h
      exact h.2
    have hcount : (jobs.countP fun j => decide (j.id = x))
        = (jobs.map ProcessJob.id).count x := by
      rw [List.count_eq_countP, List.countP_map]
      apply List.countP_congr
      intro j _
      by_cases h : j.id = x <;> simp [h]
    have h2 : (jobs.countP fun j => decide (j.id = x)) ≤ 1 := by
      rw [hcount]
      exact List.nodup_iff_count_le_one.mp hnd x
    have h3 : 1 ≤ (starts.map ProcessJob.id).count x := List.count_pos_iff.mpr hx
    omega
  · have hz : (starts.map ProcessJob.id).count x = 0 := List.count_eq_zero.mpr hx
    rw [hz, Nat.add_zero]
    apply List.countP_mono_left
    intro j hjmem h
    simp only [Bool.and_eq_true, decide_eq_true_eq] at h ⊢
    by_cases hc : (starts.any fun js => decide (js.id = j.id)) = true
    · exfalso
      rw [List.any_eq_true] at hc
      obtain ⟨js, hjs, hjsid⟩ := hc
      have hjsid' : js.id = j.id := of_decide_eq_true hjsid
      apply hx
      rw [List.mem_map]
      refine ⟨js, hjs, ?_⟩
      rw [hjsid']
      have := h.2
      rw [hidflip j] at this
      exact this
    · rw [if_neg hc] at h
      exact h

/-- A pointwise rewrite that keeps ids keeps the id list. -/
lemma map_preserves_ids (jobs : List ProcessJob) (g : ProcessJob → ProcessJob)
    (hid : ∀ j, (g j).id = j.id) :
    (jobs.map g).map ProcessJob.id = jobs.map ProcessJob.id := by
  rw [List.map_map]
  exact List.map_congr_left fun j _ => hid j

/-- The error rewrite of the missing-file guard. -/
def guardErrorJob (j : ProcessJob) : ProcessJob :=
  { j with status := .error,
           errorMessage := some "File not available. Please re-upload to process." }

/-- Effect on the invariant of dispatching a list of captured jobs
(`jobsToStart.forEach(job => processJob(job))` up to the first `await` of
each run). -/
lemma foldl_processJobStart_inv :
    ∀ (L : List ProcessJob) (t : AppState),
      t.activeJobsCount = (t.inflight.length : Int) →
      t.inflight.length + (L.filter fun j => j.file.isSome).length ≤ MAX_CONCURRENT_JOBS →
      procIds t.jobs ≤ (t.inflight : Multiset String)
        + ((L.map ProcessJob.id : List String) : Multiset String) →
      (t.jobs.map ProcessJob.id).Nodup →
      QueueInv (L.foldl processJobStart t) := by
  intro L
  induction L with
  | nil =>
    intro t h1 h2 h3 h4
    refine ⟨h1, by simpa using h2, by simpa using h3, h4⟩
  | cons j L ih =>
    intro t h1 h2 h3 h4
    rw [List.foldl_cons]
    rw [List.filter_cons] at h2
    have hco : ((((j :: L).map ProcessJob.id : List String)) : Multiset String)
        = j.id ::ₘ ((L.map ProcessJob.id : List String) : Multiset String) := by
      rw [List.map_cons]
      exact (Multiset.cons_coe _ _).symm
    rw [hco, Multiset.add_cons] at h3
    cases hf : j.file with
    | some f =>
      rw [hf] at h2
      simp only [Option.isSome_some, if_true, List.length_cons] at h2
      apply ih
      · simp only [processJobStart, hf]
        rw [h1, List.length_cons]
        push_cast
        ring
      · simp only [processJobStart, hf, List.length_cons]
        omega
      · simp only [processJobStart, hf]
        calc procIds t.jobs
            ≤ j.id ::ₘ ((t.inflight : Multiset String)
                + ((L.map ProcessJob.id : List String) : Multiset String)) := h3
          _ = ((j.id :: t.inflight : List String) : Multiset String)
                + ((L.map ProcessJob.id : List String) : Multiset String) := by
              rw [← Multiset.cons_coe, Multiset.cons_add]
      · simp only [processJobStart, hf]
        exact h4
    | none =>
      rw [hf] at h2
      simp only [Option.isSome_none] at h2
      simp only [Bool.false_eq_true, if_false] at h2
      apply ih
      · simp only [processJobStart, hf]
        exact h1
      · simp only [processJobStart, hf]
        omega
      · simp only [processJobStart, hf]
        have hle := procIds_flipAt_le t.jobs j.id guardErrorJob
          (fun _ => rfl) (fun _ hc => ProcessJobStatus.noConfusion hc)
          (j.id ::ₘ ((t.inflight : Multiset String)
            + ((L.map ProcessJob.id : List String) : Multiset String))) h3
        rw [Multiset.erase_cons_head] at hle
        exact hle
      · simp only [processJobStart, hf]
        rw [map_preserves_ids]
        · exact h4
        · intro j'
          by_cases hc : j'.id = j.id
          · rw [if_pos hc]
          · rw [if_neg hc]

/-- Zeta-reduced unfolding of one scheduler run. -/
lemma schedulerRun_def (s : AppState) :
    schedulerRun s =
      if (MAX_CONCURRENT_JOBS : Int) - s.activeJobsCount ≤ 0 then s
      else
        if ((s.jobs.filter fun job => decide (job.status = .queued)).take
            ((MAX_CONCURRENT_JOBS : Int) - s.activeJobsCount).toNat).isEmpty then s
        else
          ((s.jobs.filter fun job => decide (job.status = .queued)).take
            ((MAX_CONCURRENT_JOBS : Int) - s.activeJobsCount).toNat).foldl processJobStart
            { s with jobs := s.jobs.map fun j =>
              (if ((s.jobs.filter fun job => decide (job.status = .queued)).take
                  ((MAX_CONCURRENT_JOBS : Int) - s.activeJobsCount).toNat).any
                  (fun js => decide (js.id = j.id)) then { j with status := .processing }
               else j) } := rfl

/-- One scheduler run preserves the invariant. -/
lemma schedulerRun_inv (s : AppState) (h : QueueInv s) : QueueInv (schedulerRun s) := by
  obtain ⟨h1, h2, h3, h4⟩ := h
  rw [schedulerRun_def]
  split_ifs with hslots hemp
  · exact ⟨h1, h2, h3, h4⟩
  · exact ⟨h1, h2, h3, h4⟩
  · apply foldl_processJobStart_inv
    · exact h1
    · have hlen : ((s.jobs.filter fun job => decide (job.status = .queued)).take
          ((MAX_CONCURRENT_JOBS : Int) - s.activeJobsCount).toNat).length
          ≤ ((MAX_CONCURRENT_JOBS : Int) - s.activeJobsCount).toNat :=
        List.length_take_le _ _
      have hfil : (((s.jobs.filter fun job => decide (job.status = .queued)).take
            ((MAX_CONCURRENT_JOBS : Int) - s.activeJobsCount).toNat).filter
            fun j => j.file.isSome).length
          ≤ ((s.jobs.filter fun job => decide (job.status = .queued)).take
            ((MAX_CONCURRENT_JOBS : Int) - s.activeJobsCount).toNat).length :=
        List.length_filter_le _ _
      simp only [MAX_CONCURRENT_JOBS] at *
      omega
    · calc procIds (s.jobs.map fun j =>
            (if ((s.jobs.filter fun job => decide (job.status = .queued)).take
                ((MAX_CONCURRENT_JOBS : Int) - s.activeJobsCount).toNat).any
                (fun js => decide (js.id = j.id)) then { j with status := .processing }
             else j))
          ≤ procIds s.jobs + ((((s.jobs.filter fun job => decide (job.status = .queued)).take
              ((MAX_CONCURRENT_JOBS : Int) - s.activeJobsCount).toNat).map ProcessJob.id
              : List String) : Multiset String) :=
            procIds_flipProc_le s.jobs _ h4
        _ ≤ (s.inflight : Multiset String)
              + ((((s.jobs.filter fun job => decide (job.status = .queued)).take
                ((MAX_CONCURRENT_JOBS : Int) - s.activeJobsCount).toNat).map ProcessJob.id
                : List String) : Multiset String) := add_le_add_right h3 _
    · rw [map_preserves_ids]
      · exact h4
      · intro j
        by_cases hc : (((s.jobs.filter fun job => decide (job.status = .queued)).take
            ((MAX_CONCURRENT_JOBS : Int) - s.activeJobsCount).toNat).any
            (fun js => decide (js.id = j.id))) = true
        · rw [if_pos hc]
        · rw [if_neg hc]

/-- A pointwise jobs rewrite that keeps ids and introduces no `processing`
status preserves the invariant. -/
lemma mapUpdate_inv (s : AppState) (g : ProcessJob → ProcessJob)
    (hid : ∀ j, (g j).id = j.id)
    (hst : ∀ j, (g j).status = .processing → j.status = .processing)
    (h : QueueInv s) : QueueInv { s with jobs := s.jobs.map g } := by
  obtain ⟨h1, h2, h3, h4⟩ := h
  refine ⟨h1, h2, le_trans (procIds_map_le s.jobs g hid hst) h3, ?_⟩
  rw [map_preserves_ids s.jobs g hid]
  exact h4

/-- Dropping jobs preserves the invariant. -/
lemma filterUpdate_inv (s : AppState) (p : ProcessJob → Bool) (h : QueueInv s) :
    QueueInv { s with jobs := s.jobs.filter p } := by
  obtain ⟨h1, h2, h3, h4⟩ := h
  refine ⟨h1, h2, le_trans (procIds_sublist_le (List.filter_sublist _)) h3, ?_⟩
  exact ((List.filter_sublist _).map _).nodup h4

/-- The resolution of an in-flight pipeline (status rewrite at its id, one
decrement, one in-flight entry removed) preserves the invariant, for any
non-`processing` result status rewrite. -/
lemma settle_inv (s : AppState) (jobId : String) (g : ProcessJob → ProcessJob)
    (hid : ∀ j, (g j).id = j.id)
    (hnp : ∀ j, (g j).status ≠ .processing)
    (hmem : jobId ∈ s.inflight) (h : QueueInv s) :
    QueueInv { jobs := s.jobs.map fun j => if j.id = jobId then g j else j,
               activeJobsCount := s.activeJobsCount - 1,
               inflight := s.inflight.erase jobId } := by
  obtain ⟨h1, h2, h3, h4⟩ := h
  have hlen : (s.inflight.erase jobId).length = s.inflight.length - 1 :=
    List.length_erase_of_mem hmem
  have hpos : 0 < s.inflight.length := List.length_pos.mpr (List.ne_nil_of_mem hmem)
  refine ⟨?_, ?_, ?_, ?_⟩
  · show s.activeJobsCount - 1 = _
    rw [hlen, h1]
    omega
  · show (s.inflight.erase jobId).length ≤ MAX_CONCURRENT_JOBS
    omega
  · show procIds (s.jobs.map fun j => if j.id = jobId then g j else j)
        ≤ ((s.inflight.erase jobId : List String) : Multiset String)
    rw [← Multiset.coe_erase]
    exact procIds_flipAt_le s.jobs jobId g hid hnp _ h3
  · show ((s.jobs.map fun j => if j.id = jobId then g j else j).map ProcessJob.id).Nodup
    rw [map_preserves_ids]
    · exact h4
    · intro j
      by_cases hc : j.id = jobId
      · rw [if_pos hc]
        exact hid j
      · rw [if_neg hc]

/-- Adding fresh files preserves the invariant. -/
lemma fileSelectStep_inv (conversionMode : ConversionMode) (files : List JsFile)
    (s : AppState) (hfresh : freshFiles files s.jobs) (h : QueueInv s) :
    QueueInv (fileSelectStep conversionMode files s) := by
  obtain ⟨h1, h2, h3, h4⟩ := h
  obtain ⟨hndf, hdisj⟩ := hfresh
  have hnewids : (files.map (mkNewJob conversionMode)).map ProcessJob.id
      = files.map jobIdOfFile := by
    rw [List.map_map]
    exact List.map_congr_left fun f _ => rfl
  refine ⟨h1, h2, ?_, ?_⟩
  · show procIds ((s.jobs.filter fun job =>
        decide (job.status = .queued) || decide (job.status = .processing))
        ++ files.map (mkNewJob conversionMode)) ≤ _
    rw [procIds_append]
    have hnew : procIds (files.map (mkNewJob conversionMode)) = 0 := by
      unfold procIds
      have hns : (files.map (mkNewJob conversionMode)).filter
          (fun j => decide (j.status = .processing)) = [] := by
        rw [List.filter_eq_nil_iff]
        intro j hj
        rw [List.mem_map] at hj
        obtain ⟨f, _, rfl⟩ := hj
        simp [mkNewJob]
      rw [hns]
      rfl
    rw [hnew, add_zero]
    exact le_trans (procIds_sublist_le (List.filter_sublist _)) h3
  · show (((s.jobs.filter fun job =>
        decide (job.status = .queued) || decide (job.status = .processing))
        ++ files.map (mkNewJob conversionMode)).map ProcessJob.id).Nodup
    rw [List.map_append]
    apply List.Nodup.append
    · exact ((List.filter_sublist _).map _).nodup h4
    · rw [hnewids]
      exact hndf
    · intro a ha hb
      rw [hnewids, List.mem_map] at hb
      obtain ⟨f, hf, rfl⟩ := hb
      apply hdisj f hf
      have hsub : ((s.jobs.filter fun job =>
          decide (job.status = .queued) || decide (job.status = .processing)).map
          ProcessJob.id).Sublist (s.jobs.map ProcessJob.id) :=
        (List.filter_sublist _).map _
      exact hsub.mem ha

/-- The restored initial state satisfies the invariant when the snapshot's
ids are distinct. -/
lemma initialState_inv (savedJobs : List ProcessJob)
    (hnd : (savedJobs.map ProcessJob.id).Nodup) : QueueInv (initialState savedJobs) := by
  have hid : ∀ j, (restoreJob j).id = j.id := by
    intro j
    unfold restoreJob
    by_cases h : j.status = .processing ∨ j.status = .queued
    · rw [if_pos h]
    · rw [if_neg h]
  refine ⟨rfl, by simp [initialState, MAX_CONCURRENT_JOBS], ?_, ?_⟩
  · show procIds (restoreJobs savedJobs) ≤ (([] : List String) : Multiset String)
    have hz : procIds (restoreJobs savedJobs) = 0 := by
      unfold procIds restoreJobs
      have hns : (savedJobs.map restoreJob).filter
          (fun j => decide (j.status = .processing)) = [] := by
        rw [List.filter_eq_nil_iff]
        intro j hj
        rw [List.mem_map] at hj
        obtain ⟨a, _, rfl⟩ := hj
        unfold restoreJob
        by_cases h : a.status = .processing ∨ a.status = .queued
        · rw [if_pos h]
          simp
        · rw [if_neg h]
          simp only [decide_eq_true_eq]
          intro hc
          exact h (Or.inl hc)
      rw [hns]
      rfl
    rw [hz]
    exact le_refl _
  · show ((restoreJobs savedJobs).map ProcessJob.id).Nodup
    unfold restoreJobs
    rw [map_preserves_ids savedJobs restoreJob hid]
    exact hnd

/-- Every UI-invocable transition preserves the invariant. -/
lemma uiStep_inv {s t : AppState} (hstep : UiStep s t) (h : QueueInv s) : QueueInv t := by
  cases hstep with
  | scheduler => exact schedulerRun_inv s h
  | settleOk jobId sheets hmem =>
    exact settle_inv s jobId
      (fun j => { j with status := .success, extractedSheets := some sheets,
                         progressMessage := none })
      (fun _ => rfl) (fun _ hc => ProcessJobStatus.noConfusion hc) hmem h
  | settleErr jobId message hmem =>
    exact settle_inv s jobId
      (fun j => { j with status := .error, errorMessage := some message,
                         progressMessage := none })
      (fun _ => rfl) (fun _ hc => ProcessJobStatus.noConfusion hc) hmem h
  | progress jobId message hmem =>
    apply mapUpdate_inv s
      (fun j => if j.id = jobId then { j with progressMessage := some message } else j)
      ?_ ?_ h
    · intro j
      dsimp only
      by_cases hc : j.id = jobId
      · rw [if_pos hc]
      · rw [if_neg hc]
    · intro j
      dsimp only
      by_cases hc : j.id = jobId
      · rw [if_pos hc]
        exact fun hp => hp
      · rw [if_neg hc]
        exact fun hp => hp
  | retry jobId hguard =>
    apply mapUpdate_inv s
      (fun job => if job.id = jobId then
        { job with status := .queued, errorMessage := none, extractedSheets := none }
       else job)
      ?_ ?_ h
    · intro j
      dsimp only
      by_cases hc : j.id = jobId
      · rw [if_pos hc]
      · rw [if_neg hc]
    · intro j
      dsimp only
      by_cases hc : j.id = jobId
      · rw [if_pos hc]
        exact fun hp => ProcessJobStatus.noConfusion hp
      · rw [if_neg hc]
        exact fun hp => hp
  | retrySelected sel =>
    show QueueInv { s with jobs := (handleRetrySelected s.jobs sel).1 }
    by_cases hpos : 0 < (sel.filter fun id => retrySelectable s.jobs id = true).card
    · have heq0 : (handleRetrySelected s.jobs sel).1 =
          if 0 < (sel.filter fun id => retrySelectable s.jobs id = true).card then
            s.jobs.map fun job =>
              if job.id ∈ sel.filter (fun id => retrySelectable s.jobs id = true) then
                { job with status := .queued, errorMessage := none, extractedSheets := none }
              else job
          else s.jobs := rfl
      rw [heq0, if_pos hpos]
      apply mapUpdate_inv s
        (fun job => if job.id ∈ sel.filter (fun id => retrySelectable s.jobs id = true) then
          { job with status := .queued, errorMessage := none, extractedSheets := none }
         else job)
        ?_ ?_ h
      · intro j
        dsimp only
        by_cases hc : j.id ∈ sel.filter fun id => retrySelectable s.jobs id = true
        · rw [if_pos hc]
        · rw [if_neg hc]
      · intro j
        dsimp only
        by_cases hc : j.id ∈ sel.filter fun id => retrySelectable s.jobs id = true
        · rw [if_pos hc]
          exact fun hp => ProcessJobStatus.noConfusion hp
        · rw [if_neg hc]
          exact fun hp => hp
    · have heq0 : (handleRetrySelected s.jobs sel).1 =
          if 0 < (sel.filter fun id => retrySelectable s.jobs id = true).card then
            s.jobs.map fun job =>
              if job.id ∈ sel.filter (fun id => retrySelectable s.jobs id = true) then
                { job with status := .queued, errorMessage := none, extractedSheets := none }
              else job
          else s.jobs := rfl
      rw [heq0, if_neg hpos]
      exact h
  | deleteSelected sel => exact filterUpdate_inv s _ h
  | clearAll =>
    obtain ⟨h1, h2, _, _⟩ := h
    show QueueInv { s with jobs := ([] : List ProcessJob) }
    exact ⟨h1, h2, by rw [show procIds [] = 0 from rfl]; exact Multiset.zero_le _,
      List.nodup_nil⟩
  | clearCompleted => exact filterUpdate_inv s _ h
  | pageRange jobId range =>
    apply mapUpdate_inv s
      (fun j => if j.id = jobId then { j with pageRange := some range } else j) ?_ ?_ h
    · intro j
      dsimp only
      by_cases hc : j.id = jobId
      · rw [if_pos hc]
      · rw [if_neg hc]
    · intro j
      dsimp only
      by_cases hc : j.id = jobId
      · rw [if_pos hc]
        exact fun hp => hp
      · rw [if_neg hc]
        exact fun hp => hp
  | saveChanges viewingId editedData =>
    apply mapUpdate_inv s
      (fun j => if j.id = viewingId then { j with extractedSheets := some editedData } else j)
      ?_ ?_ h
    · intro j
      dsimp only
      by_cases hc : j.id = viewingId
      · rw [if_pos hc]
      · rw [if_neg hc]
    · intro j
      dsimp only
      by_cases hc : j.id = viewingId
      · rw [if_pos hc]
        exact fun hp => hp
      · rw [if_neg hc]
        exact fun hp => hp
  | savePdfOptions jobId newOptions =>
    apply mapUpdate_inv s
      (fun j => if j.id = jobId then { j with pdfOptions := some newOptions } else j) ?_ ?_ h
    · intro j
      dsimp only
      by_cases hc : j.id = jobId
      · rw [if_pos hc]
      · rw [if_neg hc]
    · intro j
      dsimp only
      by_cases hc : j.id = jobId
      · rw [if_pos hc]
        exact fun hp => hp
      · rw [if_neg hc]
        exact fun hp => hp
  | download externalOutcome job hmem hsucc =>
    show QueueInv { s with jobs := handleDownload externalOutcome job s.jobs }
    unfold handleDownload
    cases job.extractedSheets with
    | none => exact h
    | some sheets =>
      dsimp only
      cases downloadResult externalOutcome job sheets with
      | ok u => exact h
      | error message =>
        dsimp only
        apply mapUpdate_inv s
          (fun j => if j.id = job.id then
            { j with status := .error, errorMessage := some message } else j) ?_ ?_ h
        · intro j
          dsimp only
          by_cases hc : j.id = job.id
          · rw [if_pos hc]
          · rw [if_neg hc]
        · intro j
          dsimp only
          by_cases hc : j.id = job.id
          · rw [if_pos hc]
            exact fun hp => ProcessJobStatus.noConfusion hp
          · rw [if_neg hc]
            exact fun hp => hp

/-- Every reachable state under unique job identities satisfies the
scheduler invariant. -/
lemma reachableFresh_inv {s : AppState} (h : ReachableFresh s) : QueueInv s := by
  induction h with
  | init savedJobs hnd => exact initialState_inv savedJobs hnd
  | step _ hstep ih => exact uiStep_inv hstep ih
  | fileSelect conversionMode files _ hfresh ih =>
    exact fileSelectStep_inv conversionMode files _ hfresh ih

/-- C1 as amended: provided job identities are unique — the restored
snapshot's ids are pairwise distinct and every file selection adds only
fresh ids — every reachable state of the app has at most
`MAX_CONCURRENT_JOBS` jobs in status `processing` (each scheduler run, by
construction of `schedulerRun`, admits at most `ceiling − activeJobsCount`
queued jobs in queue order).  Without that uniqueness the ceiling can be
exceeded, see the counterexample. -/
theorem c1_processing_ceiling {s : AppState} (h : ReachableFresh s) :
    countProcessing s.jobs ≤ MAX_CONCURRENT_JOBS := by
  obtain ⟨_, h2, h3, _⟩ := reachableFresh_inv h
  have hcard := Multiset.card_le_card h3
  have hL : (procIds s.jobs).card = countProcessing s.jobs := by
    unfold procIds countProcessing
    simp
  have hR : Multiset.card (s.inflight : Multiset String) = s.inflight.length := by simp
  rw [hL, hR] at hcard
  exact le_trans hcard h2

/-- Witness for the amended C1 at the freshly restored empty queue. -/
theorem c1_processing_ceiling_witness :
    countProcessing (initialState []).jobs ≤ MAX_CONCURRENT_JOBS :=
  c1_processing_ceiling (ReachableFresh.init [] (by simp))

/-- Files of the C1 counterexample run: three distinct files, plus one file
that is added twice (same name, modification time and size, hence the same
derived job id). -/
def cexF1 : JsFile := { name := "b1", lastModified := 0, size := 0 }

/-- Second distinct file of the counterexample. -/
def cexF2 : JsFile := { name := "b2", lastModified := 0, size := 0 }

/-- Third distinct file of the counterexample. -/
def cexF3 : JsFile := { name := "b3", lastModified := 0, size := 0 }

/-- The file that gets selected twice while the queue is saturated. -/
def cexFa : JsFile := { name := "a", lastModified := 0, size := 0 }

/-- Counterexample run, step 1: select three files on the fresh app. -/
def cexS1 : AppState := fileSelectStep .pdfToExcel [cexF1, cexF2, cexF3] (initialState [])

/-- Step 2: the scheduler admits all three (slots 3). -/
def cexS2 : AppState := schedulerRun cexS1

/-- Step 3: select the duplicate file once (queued behind 3 processing). -/
def cexS3 : AppState := fileSelectStep .pdfToExcel [cexFa] cexS2

/-- Step 4: select the very same file again — `handleFileSelect` keeps the
still-queued first copy and appends a second job with the same id. -/
def cexS4 : AppState := fileSelectStep .pdfToExcel [cexFa] cexS3

/-- Step 5: the first pipeline settles successfully, freeing a slot. -/
def cexS5 : AppState := settleSuccess (jobIdOfFile cexF1) [] cexS4

/-- Step 6: the scheduler admits one queued job — but the `processing` flip
matches *by id* and hits both duplicates. -/
def cexS6 : AppState := schedulerRun cexS5

/-- C1 counterexample: the state after the run above is reachable, yet it
has four jobs in status `processing` — the concurrency ceiling
`MAX_CONCURRENT_JOBS = 3` is exceeded. -/
theorem c1_counterexample :
    Reachable cexS6 ∧ MAX_CONCURRENT_JOBS < countProcessing cexS6.jobs := by
  constructor
  · have h0 : Reachable (initialState []) := Reachable.init []
    have r1 : Reachable cexS1 := Reachable.fileSelect _ _ h0
    have r2 : Reachable cexS2 := Reachable.step r1 (UiStep.scheduler _)
    have r3 : Reachable cexS3 := Reachable.fileSelect _ _ r2
    have r4 : Reachable cexS4 := Reachable.fileSelect _ _ r3
    have r5 : Reachable cexS5 := Reachable.step r4 (UiStep.settleOk _ _ _ (by decide))
    exact Reachable.step r5 (UiStep.scheduler _)
  · decide
